import Mathlib

/-!
# httpProxy: a shallow embedding of `main.go`

The gateway in `main.go` parses the request path into a service name, a
service version and a downstream path (`extractNameVersion`), picks one of the
registered endpoints with a flag read from a key-value store (`loadBalance`),
rebuilds the request for that endpoint (`HitTarget`) and relays the answer
(`requestHandler`).

Go strings are modelled as lists of characters.  The package-level values
`ServiceRegistry`, `Client` and `fasthttpClient` are fields of an explicit
environment, so that every outcome of a registry lookup, of a flag read and of
an upstream call can be quantified over.  A Go run-time panic (index out of
range, nil dereference) is the value `none`.  Console output is not modelled.
-/

namespace HttpProxy

/-- Go `string`: a sequence of characters. -/
abbrev Str := List Char

/-- Go `error`: `none` is `nil`, `some msg` an error with that message. -/
abbrev GoError := Option Str

/-! ## The library functions the program calls -/

/-- Go `strings.Split(s, sep)` for a one-character separator: every piece
between two separators, the pieces before the first and after the last
included.  The result is never empty: a string without separator is its own
single piece. -/
def Split : Str → Char → List Str
  | [], _ => [[]]
  | c :: cs, sep =>
    if c = sep then [] :: Split cs sep
    else
      match Split cs sep with
      | [] => [[c]]
      | piece :: pieces => (c :: piece) :: pieces

/-- Go `strings.SplitN(s, sep, n)` for a one-character separator and `n ≥ 0`:
at most `n` pieces, the last one being the unsplit remainder. -/
def SplitN : Str → Char → Nat → List Str
  | _, _, 0 => []
  | s, _, 1 => [s]
  | [], _, _ + 2 => [[]]
  | c :: cs, sep, n + 2 =>
    if c = sep then [] :: SplitN cs sep (n + 1)
    else
      match SplitN cs sep (n + 2) with
      | [] => [[c]]
      | piece :: pieces => (c :: piece) :: pieces

/-- Go `strings.Join(elems, sep)`. -/
def Join : List Str → Str → Str
  | [], _ => []
  | [a], _ => a
  | a :: b :: rest, sep => a ++ sep ++ Join (b :: rest) sep

/-- Go `strings.Contains(s, substr)`: `substr` occurs somewhere in `s`. -/
def Contains : Str → Str → Bool
  | [], substr => substr.isEmpty
  | c :: cs, substr => substr.isPrefixOf (c :: cs) || Contains cs substr

/-- Go `unicode.IsSpace`: the characters with the Unicode White_Space property. -/
def isSpace (c : Char) : Bool :=
  let n := c.toNat
  (9 ≤ n && n ≤ 13) || n = 32 || n = 133 || n = 160 || n = 5760 ||
  (8192 ≤ n && n ≤ 8202) || n = 8232 || n = 8233 || n = 8239 || n = 8287 || n = 12288

/-- Go `strings.TrimSpace`: leading and trailing white space removed. -/
def TrimSpace (s : Str) : Str :=
  ((s.dropWhile isSpace).reverse.dropWhile isSpace).reverse

/-- Go `strconv.ParseBool` with its error dropped, as in `b, _ := strconv.ParseBool(val)`:
true for `1`, `t`, `T`, `TRUE`, `true`, `True`, false for every other text. -/
def ParseBool (val : Str) : Bool :=
  val = "1".toList || val = "t".toList || val = "T".toList ||
  val = "TRUE".toList || val = "true".toList || val = "True".toList

/-! ## `extractNameVersion` -/

/-- The four results of `extractNameVersion`. -/
structure NameVersion where
  name : Str
  version : Str
  targetPath : Str
  err : GoError
  deriving DecidableEq, Repr

/-- `extractNameVersion` of `main.go`.  The test `len(path) > 1 && path[0] == '/'`
counts bytes; as `/` is one byte, it holds exactly when the text starts with `/`
and has a further character. -/
def extractNameVersion (path : Str) : NameVersion :=
  let path := if path.length > 1 ∧ path.head? = some '/' then path.drop 1 else path
  let tmp := Split path '/'
  if tmp.length < 2 then
    { name := [], version := [], targetPath := [], err := some "Invalid path".toList }
  else
    { name := tmp.getD 0 [], version := tmp.getD 1 [],
      targetPath := "/".toList ++ Join (tmp.drop 2) "/".toList, err := none }

/-! ## The registry and the flag store -/

/-- The interface `registry.Registry`: `Lookup(name, version)` returns the
endpoint list and an error. -/
structure Registry where
  Lookup : Str → Str → List Str × GoError

/-- The calls made on the key-value client `Client`: `Ping().Result()` and
`Get(key).Result()`, each returning a text and an error. -/
structure RedisClient where
  Ping : Str × GoError
  Get : Str → Str × GoError

/-- Modelled from the spec: the type `registry.DefaultRegistry` of the imported
registry package (service name to version to endpoint list), whose `Lookup`
"fails with ServiceNotFound when the RouteKey is absent". -/
abbrev DefaultRegistry := List (Str × List (Str × List Str))

/-- Modelled from the spec: `Lookup` on a `DefaultRegistry`, a read of the
two-level table that fails when the pair is absent. -/
def DefaultRegistry.Lookup (r : DefaultRegistry) (name version : Str) : List Str × GoError :=
  match r.lookup name with
  | none => ([], some "service name/version not found".toList)
  | some versions =>
    match versions.lookup version with
    | none => ([], some "service name/version not found".toList)
    | some targets => (targets, none)

/-- The package-level table `ServiceRegistry` of `main.go`. -/
def ServiceRegistry : DefaultRegistry :=
  [("service1".toList,
    [("Key".toList, ["http://abcMock.com".toList, "https://abcActual.com".toList])])]

/-- A `DefaultRegistry` seen through the `Registry` interface. -/
def DefaultRegistry.toRegistry (r : DefaultRegistry) : Registry :=
  { Lookup := r.Lookup }

/-! ## `loadBalance` -/

/-- `loadBalance` of `main.go`.  The result `none` is the run-time panic of an
index out of range; `some (endpoint, err)` are the two returned values.  The
`for` of the source runs its body at most once: it either breaks on the empty
list or returns. -/
def loadBalance (serviceName serviceVersion : Str) (reg : Registry) (client : RedisClient) :
    Option (Str × GoError) :=
  let (endpoints, err) := reg.Lookup serviceName serviceVersion
  if err ≠ none then some ([], err)
  else if endpoints.length = 0 then
    some ([], some ("No endpoint available for ".toList ++ serviceName ++ "/".toList ++ serviceVersion))
  else
    let (_, _) := client.Ping
    let (val, err) := client.Get serviceVersion
    let val := if err ≠ none then "false".toList else val
    if ParseBool val then
      match endpoints[0]? with
      | some endpoint => some (endpoint, none)
      | none => none
    else
      match endpoints[1]? with
      | some endpoint => some (endpoint, none)
      | none => none

/-! ## Requests and responses -/

/-- The header list of a request: names with their values, in insertion order. -/
abbrev Headers := List (Str × Str)

/-- The generic store of a request header, fasthttp's `setArg`: the value of
the first header of that name is replaced, and a new header is appended when
there is none. -/
def Headers.setArg : Headers → Str → Str → Headers
  | [], key, value => [(key, value)]
  | (k, v) :: rest, key, value =>
    if k = key then (key, value) :: rest else (k, v) :: Headers.setArg rest key value

/-- The call `Header.Peek(key)`: the value of the first header of that name. -/
def Headers.Peek : Headers → Str → Option Str
  | [], _ => none
  | (k, v) :: rest, key => if k = key then some v else Headers.Peek rest key

/-- A cookie name or value without the blanks around it. -/
def trimBlanks (s : Str) : Str :=
  ((s.dropWhile (fun c => c = ' ')).reverse.dropWhile (fun c => c = ' ')).reverse

/-- A cookie value without the double quotes around it, when it has both. -/
def unquote (s : Str) : Str :=
  if s.length > 1 ∧ s.head? = some (Char.ofNat 34) ∧ s.getLast? = some (Char.ofNat 34) then
    (s.drop 1).dropLast
  else s

/-- One cookie of a `Cookie` value as the request header writes it back:
`name=value` without blanks around the name and the value, and the value alone
when there is no name. -/
def cookiePiece (piece : Str) : Str :=
  match SplitN piece '=' 2 with
  | [name, value] =>
    if trimBlanks name = [] then unquote (trimBlanks value)
    else trimBlanks name ++ '=' :: unquote (trimBlanks value)
  | _ => unquote (trimBlanks piece)

/-- A `Cookie` value as the request header writes it back: the cookies between
the `;`, the empty ones dropped, joined with `; `. -/
def cookieText (value : Str) : Str :=
  Join (((Split value ';').map cookiePiece).filter (fun piece => piece ≠ [])) "; ".toList

/-- The call `Header.Set(key, value)` on a request header, seen as the list of
header lines it writes.  `Transfer-Encoding` and `Content-Length` are managed by
the client and a value set for them is ignored; the value of `Cookie` is parsed
into cookies, which are added to the cookies already set and written back
joined with `; `; every other name, those kept in a field of their own (`Host`,
`User-Agent`, `Content-Type`, `Connection`) included, has its value replaced or
is appended.  Names are compared as they stand: the block that `Header()`
returns has them in canonical form already. -/
def Headers.Set (headers : Headers) (key value : Str) : Headers :=
  if key = "Transfer-Encoding".toList ∨ key = "Content-Length".toList then headers
  else if key = "Cookie".toList then
    match headers.Peek key with
    | some old =>
      if cookieText value = [] then headers
      else if old = [] then headers.setArg key (cookieText value)
      else headers.setArg key (old ++ "; ".toList ++ cookieText value)
    | none => if cookieText value = [] then headers else headers.setArg key (cookieText value)
  else headers.setArg key value

/-- The outbound `fasthttp.Request`. -/
structure Request where
  uri : Str
  method : Str
  headers : Headers
  body : Str
  deriving DecidableEq, Repr

/-- A `fasthttp.Response`: the stored status code (0 while unset), the stored
content type (empty while unset) and the body. -/
structure Response where
  statusCode : Nat
  contentType : Str
  body : Str
  deriving DecidableEq, Repr

/-- The call `fasthttp.AcquireRequest()`: an empty request. -/
def AcquireRequest : Request :=
  { uri := [], method := [], headers := [], body := [] }

/-- The call `fasthttp.AcquireResponse()`: an empty response. -/
def AcquireResponse : Response :=
  { statusCode := 0, contentType := [], body := [] }

/-- The call `resp.StatusCode()`: 200 while no status code is stored. -/
def Response.StatusCode (resp : Response) : Nat :=
  if resp.statusCode = 0 then 200 else resp.statusCode

/-- The call `resp.Header.Peek("content-type")`: the stored content type, and
the default content type while none is stored. -/
def Response.PeekContentType (resp : Response) : Str :=
  if resp.contentType = [] then "text/plain; charset=utf-8".toList else resp.contentType

/-- The parts of the inbound `fasthttp.RequestCtx` that the program reads. -/
structure RequestCtx where
  /-- The value of `ctx.Request.RequestURI()`. -/
  requestURI : Str
  /-- The method as stored in the request header. -/
  method : Str
  /-- The value of `ctx.Request.Header.Header()`: the request line and the header lines. -/
  header : Str
  /-- The value of `ctx.Request.Body()`. -/
  body : Str
  deriving DecidableEq, Repr

/-- The call `ctx.Method()`: `GET` while no method is stored. -/
def RequestCtx.Method (ctx : RequestCtx) : Str :=
  if ctx.method = [] then "GET".toList else ctx.method

/-- The call `ctx.IsGet()`. -/
def RequestCtx.IsGet (ctx : RequestCtx) : Bool := ctx.Method = "GET".toList

/-- The call `ctx.IsDelete()`. -/
def RequestCtx.IsDelete (ctx : RequestCtx) : Bool := ctx.Method = "DELETE".toList

/-- The call `ctx.IsPost()`. -/
def RequestCtx.IsPost (ctx : RequestCtx) : Bool := ctx.Method = "POST".toList

/-- The call `ctx.IsPut()`. -/
def RequestCtx.IsPut (ctx : RequestCtx) : Bool := ctx.Method = "PUT".toList

/-- What the program reaches outside itself: the registry, the flag store,
`url.Parse` followed by `String` (`none` when parsing fails), and
`fasthttpClient.Do`, which fills the response and returns an error. -/
structure Env where
  ServiceRegistry : Registry
  Client : RedisClient
  urlParse : Str → Option Str
  Do : Request → Response → Response × GoError

/-! ## `HitTarget` -/

/-- The body of the header loop of `HitTarget` for the line `value` at position
`index`: the headers of the outbound request after this line. -/
def headerStep (headers : Headers) (index : Nat) (value : Str) : Headers :=
  if index = 0 ∨ Contains value "Host".toList ∨ Contains value "User-Agent".toList ∨
      Contains value "Postman-Token".toList ∨ Contains value "Origin".toList ∨
      Contains value "Content-Length".toList then
    headers
  else
    let headersKV := SplitN value ':' 2
    if headersKV.length = 2 then
      headers.Set (TrimSpace (headersKV.getD 0 [])) (TrimSpace (headersKV.getD 1 []))
    else headers

/-- The header loop of `HitTarget`: `for index, value := range lines`, started
at position `index`. -/
def headerLoop : Nat → List Str → Headers → Headers
  | _, [], headers => headers
  | index, value :: rest, headers => headerLoop (index + 1) rest (headerStep headers index value)

/-- What a call of `HitTarget` leaves behind: the response it returns, the
outbound request as built, and the requests handed to `fasthttpClient.Do`. -/
structure HitResult where
  resp : Response
  req : Request
  sent : List Request
  deriving DecidableEq, Repr

/-- `HitTarget` of `main.go`.  When `url.Parse` fails `Url` is nil and
`Url.String()` panics: the result is `none`. -/
def HitTarget (env : Env) (ctx : RequestCtx) (targetEndPoint targetURI : Str) :
    Option HitResult :=
  let req := AcquireRequest
  let resp := AcquireResponse
  match env.urlParse (targetEndPoint ++ targetURI) with
  | none => none
  | some url =>
    let req := { req with uri := url }
    let req := { req with method := ctx.Method }
    let headersFromRequest := ctx.header
    let req := { req with
      headers := headerLoop 0 (Split headersFromRequest (Char.ofNat 10)) req.headers }
    if ctx.IsGet ∨ ctx.IsDelete then
      let (resp, _) := env.Do req resp
      some { resp := resp, req := req, sent := [req] }
    else if ctx.IsPost ∨ ctx.IsPut then
      let req := { req with headers := req.headers.Set "Content-Type".toList "text/xml".toList }
      let req := { req with body := ctx.body }
      let (resp, _) := env.Do req resp
      some { resp := resp, req := req, sent := [req] }
    else
      some { resp := resp, req := req, sent := [] }

/-! ## `requestHandler` -/

/-- The body written by `requestHandler` when no endpoint was found. -/
def notFoundBody : Str :=
  "\x7b\"status\": \x7b \"statusType\": \"ERROR\", \"statusMessage\": \"service name/version not found\" \x7d\x7d".toList

/-- What a call of `requestHandler` leaves behind: `ctx.Response` and the
requests handed to `fasthttpClient.Do`. -/
structure Handled where
  response : Response
  sent : List Request
  deriving DecidableEq, Repr

/-- `requestHandler` of `main.go`; `none` when the handler panics.  The calls of
`checkError` only print. -/
def requestHandler (env : Env) (ctx : RequestCtx) : Option Handled :=
  let nv := extractNameVersion ctx.requestURI
  match loadBalance nv.name nv.version env.ServiceRegistry env.Client with
  | none => none
  | some (endpointT, _) =>
    if endpointT = [] then
      let response := AcquireResponse
      let response := { response with contentType := "application/json".toList }
      let response := { response with body := notFoundBody }
      let response := { response with statusCode := 400 }
      some { response := response, sent := [] }
    else
      match HitTarget env ctx endpointT nv.targetPath with
      | none => none
      | some hit =>
        let respFromTarget := hit.resp
        let response := AcquireResponse
        let response := { response with contentType := respFromTarget.PeekContentType }
        let response := { response with body := respFromTarget.body }
        let response := { response with statusCode := respFromTarget.StatusCode }
        some { response := response, sent := hit.sent }

/-! ## Notions of the specification -/

/-- The path resolver's first step in the specification's words: "strip at most
one leading path separator". -/
def stripLeadingSlash (path : Str) : Str :=
  if path.head? = some '/' then path.drop 1 else path

/-- The header names the specification lists as never forwarded: Host,
User-Agent, the client-tool trace header Postman-Token, Origin and
Content-Length. -/
def denylist : List Str :=
  ["Host".toList, "User-Agent".toList, "Postman-Token".toList, "Origin".toList,
    "Content-Length".toList]

/-- The name of a header line: the text before its first `:`, without
surrounding white space. -/
def headerName (line : Str) : Str :=
  TrimSpace ((SplitN line ':' 2).getD 0 [])

/-- The headers that the header loop of `HitTarget` leaves on the outbound
request: the loop run over the lines of the inbound header block. -/
def copiedHeaders (ctx : RequestCtx) : Headers :=
  headerLoop 0 (Split ctx.header (Char.ofNat 10)) []

/-- The outbound request of `HitTarget` after the header loop, before the
method is looked at: the target URL, the inbound method, the copied headers and
no body. -/
def baseRequest (ctx : RequestCtx) (url : Str) : Request :=
  { uri := url, method := ctx.Method, headers := copiedHeaders ctx, body := [] }

/-- The outbound request of `HitTarget` for POST and PUT: the base request with
the content type and the body set. -/
def bodyRequest (ctx : RequestCtx) (url : Str) : Request :=
  { uri := url, method := ctx.Method,
    headers := (copiedHeaders ctx).Set "Content-Type".toList "text/xml".toList,
    body := ctx.body }

/-! ## Sample inputs -/

/-- A flag store that answers every `Get` with `val`. -/
def flagStore (val : Str) : RedisClient :=
  { Ping := ("PONG".toList, none), Get := fun _ => (val, none) }

/-- A flag store that cannot be reached: `Ping` and `Get` fail. -/
def flagStoreDown : RedisClient :=
  { Ping := ([], some "dial tcp: connection refused".toList)
    Get := fun _ => ([], some "dial tcp: connection refused".toList) }

/-- A registry with the one-endpoint entry `(solo, v1)`. -/
def soloRegistry : Registry :=
  DefaultRegistry.toRegistry
    [("solo".toList, [("v1".toList, ["http://only.example".toList])])]

/-- An upstream that answers every request with status 201, the content type
`application/xml` and the body `<ok/>`. -/
def upstreamUp : Request → Response → Response × GoError :=
  fun _ _ =>
    ({ statusCode := 201, contentType := "application/xml".toList, body := "<ok/>".toList }, none)

/-- An upstream that cannot be reached: the call fails and the response is left
as it was handed in. -/
def upstreamDown : Request → Response → Response × GoError :=
  fun _ resp => (resp, some "dial tcp: connection refused".toList)

/-- The gateway with the table `ServiceRegistry`, a URL parser that accepts
every text unchanged, and the given flag store and upstream. -/
def gateway (client : RedisClient) (upstream : Request → Response → Response × GoError) : Env :=
  { ServiceRegistry := ServiceRegistry.toRegistry, Client := client,
    urlParse := fun text => some text, Do := upstream }

/-- An inbound header block: the request line, then five header lines. -/
def sampleHeader : Str :=
  "GET /x HTTP/1.1\r\nHost: gw\r\nContent-Type: a/b\r\nContent-Length: 4\r\nAccept: text/xml\r\nX-Forwarded-Host: a\r\n\r\n".toList

/-- The request `GET /service1/Key` with the header lines `User-Agent: curl`,
`Host: gw`, `Accept: text/xml` and `X-Forwarded-Host: a`, and no body. -/
def forwardedHostRequest : RequestCtx :=
  { requestURI := "/service1/Key".toList, method := "GET".toList,
    header := "GET /service1/Key HTTP/1.1\r\nUser-Agent: curl\r\nHost: gw\r\nAccept: text/xml\r\nX-Forwarded-Host: a\r\n\r\n".toList,
    body := [] }

/-- An inbound request with the sample header block and the body `<a/>`. -/
def inbound (method uri : Str) : RequestCtx :=
  { requestURI := uri, method := method, header := sampleHeader, body := "<a/>".toList }

/-- The error body in the specification's compact spelling. -/
def compactNotFoundBody : Str :=
  "\x7b\"status\":\x7b\"statusType\":\"ERROR\",\"statusMessage\":\"service name/version not found\"\x7d\x7d".toList

/-- JSON text without its insignificant white space: outside string literals
the characters space, tab, line feed and carriage return are dropped; `inString`
tells whether the scan is inside a string literal. -/
def jsonCompact : Bool → Str → Str
  | _, [] => []
  | true, c :: cs =>
    if c = Char.ofNat 92 then
      match cs with
      | [] => [c]
      | d :: rest => c :: d :: jsonCompact true rest
    else if c = Char.ofNat 34 then c :: jsonCompact false cs
    else c :: jsonCompact true cs
  | false, c :: cs =>
    if c = Char.ofNat 34 then c :: jsonCompact true cs
    else if c = ' ' ∨ c = Char.ofNat 9 ∨ c = Char.ofNat 10 ∨ c = Char.ofNat 13 then
      jsonCompact false cs
    else c :: jsonCompact false cs

/-! ## Facts about the library functions -/

theorem Split_ne_nil (s : Str) (sep : Char) : Split s sep ≠ [] := by
  induction s with
  | nil => simp [Split]
  | cons c cs ih =>
    by_cases h : c = sep
    · simp [Split, h]
    · cases hs : Split cs sep with
      | nil => exact absurd hs ih
      | cons piece pieces => simp [Split, h, hs]

theorem Split_length (s : Str) (sep : Char) : (Split s sep).length = s.count sep + 1 := by
  induction s with
  | nil => simp [Split]
  | cons c cs ih =>
    by_cases h : c = sep
    · subst h
      simp [Split, ih]
    · cases hs : Split cs sep with
      | nil => exact absurd hs (Split_ne_nil cs sep)
      | cons piece pieces =>
        rw [hs] at ih
        simp [Split, h, hs, List.count_cons] at ih ⊢
        omega

theorem Split_of_not_mem (a : Str) (sep : Char) (h : sep ∉ a) : Split a sep = [a] := by
  induction a with
  | nil => simp [Split]
  | cons c cs ih =>
    have hc : c ≠ sep := fun e => h (by simp [e])
    have hcs : sep ∉ cs := fun e => h (by simp [e])
    simp [Split, hc, ih hcs]

theorem Split_append_sep (a b : Str) (sep : Char) (h : sep ∉ a) :
    Split (a ++ sep :: b) sep = a :: Split b sep := by
  induction a with
  | nil => simp [Split]
  | cons c cs ih =>
    have hc : c ≠ sep := fun e => h (by simp [e])
    have hcs : sep ∉ cs := fun e => h (by simp [e])
    simp [Split, hc, ih hcs]

theorem Split_segments (v : Str) (rs : List Str) (sep : Char) (hv : sep ∉ v)
    (hrs : ∀ r ∈ rs, sep ∉ r) :
    Split (v ++ (rs.map (fun r => sep :: r)).flatten) sep = v :: rs := by
  induction rs generalizing v with
  | nil => simpa using Split_of_not_mem v sep hv
  | cons r rs ih =>
    have hr : sep ∉ r := hrs r (by simp)
    have hrest : ∀ x ∈ rs, sep ∉ x := fun x hx => hrs x (by simp [hx])
    simp only [List.map_cons, List.flatten_cons, List.cons_append]
    rw [Split_append_sep v _ sep hv, ih r hr hrest]

theorem Join_eq_intercalate (xs : List Str) (sep : Str) : Join xs sep = sep.intercalate xs := by
  induction xs with
  | nil => simp [Join, List.intercalate]
  | cons a rest ih =>
    cases rest with
    | nil => simp [Join, List.intercalate]
    | cons b rest =>
      simp only [Join, ih]
      simp [List.intercalate]

/-! ## `extractNameVersion`: the claims -/

/-- C1: for a service name `s` and a version `v` without `/` and further
segments `rs` without `/`, `extractNameVersion` applied to `/s/v` followed by
`/r` for each segment returns no error, the name `s`, the version `v` and the
target path `/` followed by the segments joined with `/` (which is `/` alone
when there is no further segment). -/
theorem extractNameVersion_recovers (s v : Str) (rs : List Str)
    (hs : '/' ∉ s) (hv : '/' ∉ v) (hrs : ∀ r ∈ rs, '/' ∉ r) :
    extractNameVersion ('/' :: s ++ '/' :: v ++ (rs.map (fun r => '/' :: r)).flatten) =
      { name := s, version := v, targetPath := '/' :: ['/'].intercalate rs, err := none } := by
  have hsplit : Split (s ++ '/' :: (v ++ (rs.map (fun r => '/' :: r)).flatten)) '/' = s :: v :: rs := by
    rw [Split_append_sep s _ '/' hs, Split_segments v rs '/' hv hrs]
  have hlen : ('/' :: s ++ '/' :: v ++ (rs.map (fun r => '/' :: r)).flatten).length > 1 := by
    simp
  unfold extractNameVersion
  simp only [hlen, List.cons_append, List.head?_cons, true_and, if_true, List.drop_succ_cons,
    List.drop_zero, List.append_assoc, hsplit]
  simp [Join_eq_intercalate, hsplit]

/-- C1 at `/svc/v1/items/5` and at `/svc/v1`. -/
theorem extractNameVersion_recovers_witness :
    extractNameVersion "/svc/v1/items/5".toList =
        { name := "svc".toList, version := "v1".toList, targetPath := "/items/5".toList,
          err := none } ∧
      extractNameVersion "/svc/v1".toList =
        { name := "svc".toList, version := "v1".toList, targetPath := "/".toList, err := none } :=
  ⟨extractNameVersion_recovers "svc".toList "v1".toList ["items".toList, "5".toList]
      (by decide) (by decide) (by decide),
    extractNameVersion_recovers "svc".toList "v1".toList [] (by decide) (by decide) (by decide)⟩

theorem Split_length_lt_two (p : Str) (sep : Char) : (Split p sep).length < 2 ↔ sep ∉ p := by
  rw [Split_length, ← List.count_eq_zero]
  omega

theorem strip_eq_stripLeadingSlash (path : Str) (hroot : path ≠ ['/']) :
    (if path.length > 1 ∧ path.head? = some '/' then path.drop 1 else path) =
      stripLeadingSlash path := by
  unfold stripLeadingSlash
  match path with
  | [] => simp
  | [c] =>
    have hc : c ≠ '/' := fun e => hroot (by rw [e])
    simp [hc]
  | c :: d :: rest => simp

/-- C2, as the code has it: for every path other than the lone `/`, which the
code leaves unstripped because it strips only a path longer than one character,
when what is left after stripping one leading `/` contains no `/` the result is
the error `Invalid path` with empty name, version and target path, and when it
contains a `/` there is no error. -/
theorem extractNameVersion_error_iff (path : Str) (hroot : path ≠ "/".toList) :
    ('/' ∉ stripLeadingSlash path →
      extractNameVersion path =
        { name := [], version := [], targetPath := [], err := some "Invalid path".toList }) ∧
    ('/' ∈ stripLeadingSlash path → (extractNameVersion path).err = none) := by
  have hstrip := strip_eq_stripLeadingSlash path hroot
  unfold extractNameVersion
  simp only [hstrip]
  constructor
  · intro h
    rw [if_pos ((Split_length_lt_two _ _).mpr h)]
  · intro h
    rw [if_neg (fun hlt => (Split_length_lt_two _ _).mp hlt h)]

/-- C2, amended, at the empty path, at `/svc`, at `svc` and at `svc/v1`. -/
theorem extractNameVersion_error_iff_witness :
    extractNameVersion [] =
        { name := [], version := [], targetPath := [], err := some "Invalid path".toList } ∧
      extractNameVersion "/svc".toList =
        { name := [], version := [], targetPath := [], err := some "Invalid path".toList } ∧
      extractNameVersion "svc".toList =
        { name := [], version := [], targetPath := [], err := some "Invalid path".toList } ∧
      (extractNameVersion "svc/v1".toList).err = none :=
  ⟨(extractNameVersion_error_iff [] (by decide)).1 (by decide),
    (extractNameVersion_error_iff "/svc".toList (by decide)).1 (by decide),
    (extractNameVersion_error_iff "svc".toList (by decide)).1 (by decide),
    (extractNameVersion_error_iff "svc/v1".toList (by decide)).2 (by decide)⟩

/-- C2 as stated fails at the lone `/`: stripping one leading `/` leaves the
empty text, which has no `/`, yet `extractNameVersion` returns no error, with
empty name and version and the target path `/`. -/
theorem extractNameVersion_root_no_error :
    '/' ∉ stripLeadingSlash "/".toList ∧
      extractNameVersion "/".toList =
        { name := [], version := [], targetPath := "/".toList, err := none } := by
  decide

/-! ## `loadBalance`: the claims -/

theorem loadBalance_of_lookup (serviceName serviceVersion : Str) (reg : Registry)
    (client : RedisClient) (e : Str) (rest : List Str)
    (hlookup : reg.Lookup serviceName serviceVersion = (e :: rest, none)) :
    loadBalance serviceName serviceVersion reg client =
      if ParseBool (if (client.Get serviceVersion).2 ≠ none then "false".toList
          else (client.Get serviceVersion).1) then some (e, none)
      else
        match rest[0]? with
        | some endpoint => some (endpoint, none)
        | none => none := by
  unfold loadBalance
  rw [hlookup]
  simp only [ne_eq, not_true_eq_false, if_false, List.length_cons, Nat.add_one_ne_zero,
    List.getElem?_cons_zero, List.getElem?_cons_succ]

theorem ParseBool_true : ParseBool ['t', 'r', 'u', 'e'] = true := by decide

theorem ParseBool_false : ParseBool ['f', 'a', 'l', 's', 'e'] = false := by decide

/-- C3: when the registry lookup yields at least two endpoints, `loadBalance`
returns without error the endpoint at index 0 when the flag read succeeds with
`true`, and the endpoint at index 1 when it succeeds with `false` or when the
read fails; a second flag store with the same outcome of the read, whatever its
`Ping` answers, gives the same result. -/
theorem loadBalance_two_endpoints (serviceName serviceVersion : Str) (reg : Registry)
    (client : RedisClient) (endpoints : List Str)
    (hlookup : reg.Lookup serviceName serviceVersion = (endpoints, none))
    (hlen : 2 ≤ endpoints.length) :
    (client.Get serviceVersion = ("true".toList, none) →
      loadBalance serviceName serviceVersion reg client = some (endpoints[0], none)) ∧
    (client.Get serviceVersion = ("false".toList, none) →
      loadBalance serviceName serviceVersion reg client = some (endpoints[1], none)) ∧
    ((client.Get serviceVersion).2 ≠ none →
      loadBalance serviceName serviceVersion reg client = some (endpoints[1], none)) ∧
    (∀ other : RedisClient, other.Get serviceVersion = client.Get serviceVersion →
      loadBalance serviceName serviceVersion reg other =
        loadBalance serviceName serviceVersion reg client) := by
  match endpoints, hlen with
  | e0 :: e1 :: rest, _ =>
    have key := fun c => loadBalance_of_lookup serviceName serviceVersion reg c e0 (e1 :: rest) hlookup
    refine ⟨fun h => ?_, fun h => ?_, fun h => ?_, fun other h => ?_⟩
    · rw [key, h]; simp [ParseBool_true]
    · rw [key, h]; simp [ParseBool_false]
    · rw [key, if_pos h]; simp [ParseBool_false]
    · rw [key, key, h]

/-- C3 on the table `ServiceRegistry` for `(service1, Key)`: the mock endpoint
with the flag `true`, the actual endpoint with the flag `false` and with the
flag store down. -/
theorem loadBalance_two_endpoints_witness :
    loadBalance "service1".toList "Key".toList ServiceRegistry.toRegistry (flagStore "true".toList) =
        some ("http://abcMock.com".toList, none) ∧
      loadBalance "service1".toList "Key".toList ServiceRegistry.toRegistry (flagStore "false".toList) =
        some ("https://abcActual.com".toList, none) ∧
      loadBalance "service1".toList "Key".toList ServiceRegistry.toRegistry flagStoreDown =
        some ("https://abcActual.com".toList, none) :=
  ⟨(loadBalance_two_endpoints "service1".toList "Key".toList ServiceRegistry.toRegistry
      (flagStore "true".toList) ["http://abcMock.com".toList, "https://abcActual.com".toList]
      (by decide) (by decide)).1 rfl,
    (loadBalance_two_endpoints "service1".toList "Key".toList ServiceRegistry.toRegistry
      (flagStore "false".toList) ["http://abcMock.com".toList, "https://abcActual.com".toList]
      (by decide) (by decide)).2.1 rfl,
    (loadBalance_two_endpoints "service1".toList "Key".toList ServiceRegistry.toRegistry
      flagStoreDown ["http://abcMock.com".toList, "https://abcActual.com".toList]
      (by decide) (by decide)).2.2.1 (by decide)⟩

/-- C10: when the registry lookup yields a non-empty list, a one-element list
`[e]` makes `loadBalance` return `e` without error when the flag read succeeds
with a value that parses as true, and makes it index position 1 out of range,
returning neither endpoint nor error, when the value does not parse as true or
the read fails; `loadBalance` returns an endpoint for every flag store exactly
when the list has at least two endpoints. -/
theorem loadBalance_index_range (serviceName serviceVersion : Str) (reg : Registry)
    (endpoints : List Str)
    (hlookup : reg.Lookup serviceName serviceVersion = (endpoints, none))
    (hne : endpoints ≠ []) :
    (∀ e, endpoints = [e] → ∀ client : RedisClient,
      ((client.Get serviceVersion).2 = none → ParseBool (client.Get serviceVersion).1 = true →
        loadBalance serviceName serviceVersion reg client = some (e, none)) ∧
      ((client.Get serviceVersion).2 = none → ParseBool (client.Get serviceVersion).1 = false →
        loadBalance serviceName serviceVersion reg client = none) ∧
      ((client.Get serviceVersion).2 ≠ none →
        loadBalance serviceName serviceVersion reg client = none)) ∧
    ((∀ client : RedisClient, ∃ endpoint,
        loadBalance serviceName serviceVersion reg client = some (endpoint, none)) ↔
      2 ≤ endpoints.length) := by
  match endpoints, hne with
  | [e0], _ =>
    have key := fun c => loadBalance_of_lookup serviceName serviceVersion reg c e0 [] hlookup
    refine ⟨fun e he client => ?_, ?_⟩
    · have hee : e0 = e := by simpa using he
      subst hee
      refine ⟨fun h1 h2 => ?_, fun h1 h2 => ?_, fun h => ?_⟩
      · rw [key]; simp [h1, h2]
      · rw [key]; simp [h1, h2]
      · rw [key, if_pos h]; simp [ParseBool_false]
    · constructor
      · intro h
        obtain ⟨endpoint, hend⟩ := h flagStoreDown
        rw [key] at hend
        simp [flagStoreDown, ParseBool_false] at hend
      · intro h
        simp at h
  | e0 :: e1 :: rest, _ =>
    have key := fun c => loadBalance_of_lookup serviceName serviceVersion reg c e0 (e1 :: rest) hlookup
    refine ⟨fun e he => by simp at he, ?_⟩
    constructor
    · intro _
      simp
    · intro _ client
      rw [key]
      by_cases hb : ParseBool (if (client.Get serviceVersion).2 ≠ none then "false".toList
          else (client.Get serviceVersion).1) = true
      · exact ⟨e0, by rw [if_pos hb]⟩
      · exact ⟨e1, by rw [if_neg hb]; simp⟩

/-- C10 on a registry with the single endpoint `http://only.example`: it is
returned with the flag `true`, and with the flag `false` or the flag store down
the index is out of range. -/
theorem loadBalance_index_range_witness :
    loadBalance "solo".toList "v1".toList soloRegistry (flagStore "true".toList) =
        some ("http://only.example".toList, none) ∧
      loadBalance "solo".toList "v1".toList soloRegistry (flagStore "false".toList) = none ∧
      loadBalance "solo".toList "v1".toList soloRegistry flagStoreDown = none :=
  ⟨((loadBalance_index_range "solo".toList "v1".toList soloRegistry ["http://only.example".toList]
      (by decide) (by decide)).1 _ rfl (flagStore "true".toList)).1 rfl (by decide),
    ((loadBalance_index_range "solo".toList "v1".toList soloRegistry ["http://only.example".toList]
      (by decide) (by decide)).1 _ rfl (flagStore "false".toList)).2.1 rfl (by decide),
    ((loadBalance_index_range "solo".toList "v1".toList soloRegistry ["http://only.example".toList]
      (by decide) (by decide)).1 _ rfl flagStoreDown).2.2 (by decide)⟩

/-! ## Facts about the header loop -/

theorem Contains_iff_within (s substr : Str) : Contains s substr = true ↔ substr <:+: s := by
  induction s with
  | nil =>
    cases substr <;> simp [Contains]
  | cons c cs ih =>
    simp only [Contains, Bool.or_eq_true, ih, List.infix_cons_iff, List.isPrefixOf_iff_prefix]

theorem TrimSpace_within (s : Str) : TrimSpace s <:+: s := by
  have h1 : TrimSpace s <+: s.dropWhile isSpace := by
    have := List.rdropWhile_prefix isSpace (s.dropWhile isSpace)
    simpa [TrimSpace, List.rdropWhile] using this
  exact h1.isInfix.trans (List.dropWhile_suffix isSpace).isInfix

theorem SplitN_two_of_not_mem (s : Str) (sep : Char) (h : sep ∉ s) : SplitN s sep 2 = [s] := by
  induction s with
  | nil => simp [SplitN]
  | cons c cs ih =>
    have hc : c ≠ sep := fun e => h (by simp [e])
    have hcs : sep ∉ cs := fun e => h (by simp [e])
    simp [SplitN, hc, ih hcs]

theorem SplitN_two_append (a b : Str) (sep : Char) (h : sep ∉ a) :
    SplitN (a ++ sep :: b) sep 2 = [a, b] := by
  induction a with
  | nil => simp [SplitN]
  | cons c cs ih =>
    have hc : c ≠ sep := fun e => h (by simp [e])
    have hcs : sep ∉ cs := fun e => h (by simp [e])
    simp [SplitN, hc, ih hcs]

theorem split_at_first (s : Str) (sep : Char) (h : sep ∈ s) :
    ∃ a b, s = a ++ sep :: b ∧ sep ∉ a := by
  induction s with
  | nil => simp at h
  | cons c cs ih =>
    by_cases hc : c = sep
    · exact ⟨[], cs, by simp [hc], by simp⟩
    · have hcs : sep ∈ cs := by
        rcases List.mem_cons.mp h with e | e
        · exact absurd e.symm hc
        · exact e
      obtain ⟨a, b, hab, ha⟩ := ih hcs
      refine ⟨c :: a, b, by simp [hab], ?_⟩
      intro hm
      rcases List.mem_cons.mp hm with e | e
      · exact hc e.symm
      · exact ha e

theorem SplitN_two_head_within (s : Str) (sep : Char) : (SplitN s sep 2).getD 0 [] <+: s := by
  by_cases h : sep ∈ s
  · obtain ⟨a, b, hab, ha⟩ := split_at_first s sep h
    rw [hab, SplitN_two_append a b sep ha]
    simp
  · rw [SplitN_two_of_not_mem s sep h]
    simp

theorem headerName_within (line : Str) : headerName line <:+: line :=
  (TrimSpace_within _).trans (SplitN_two_head_within line ':').isInfix

theorem headerStep_eq (headers : Headers) (index : Nat) (value : Str) :
    headerStep headers index value = headers ∨
      (index ≠ 0 ∧ (∀ d ∈ denylist, Contains value d = false) ∧
        headerStep headers index value =
          headers.Set (headerName value) (TrimSpace ((SplitN value ':' 2).getD 1 []))) := by
  unfold headerStep
  split
  · exact Or.inl rfl
  · rename_i hskip
    simp only [not_or] at hskip
    obtain ⟨h0, h1, h2, h3, h4, h5⟩ := hskip
    by_cases hlen : (SplitN value ':' 2).length = 2
    · refine Or.inr ⟨h0, ?_, ?_⟩
      · intro d hd
        simp only [denylist, List.mem_cons, List.mem_singleton, List.not_mem_nil, or_false] at hd
        rcases hd with rfl | rfl | rfl | rfl | rfl
        · simpa using h1
        · simpa using h2
        · simpa using h3
        · simpa using h4
        · simpa using h5
      · simp only [hlen, if_true, headerName]
    · exact Or.inl (by simp only [hlen, if_false])

theorem headerStep_of_denylisted (headers : Headers) (index : Nat) (value : Str)
    (h : ∃ d ∈ denylist, d <:+: value) : headerStep headers index value = headers := by
  rcases headerStep_eq headers index value with h1 | ⟨_, hclean, _⟩
  · exact h1
  · obtain ⟨d, hd, hinf⟩ := h
    have := hclean d hd
    rw [(Contains_iff_within value d).mpr hinf] at this
    exact absurd this (by simp)

theorem mem_setArg (headers : Headers) (key value : Str) (kv : Str × Str)
    (h : kv ∈ headers.setArg key value) : kv.1 = key ∨ kv ∈ headers := by
  induction headers with
  | nil =>
    simp only [Headers.setArg, List.mem_singleton] at h
    exact Or.inl (by rw [h])
  | cons hd rest ih =>
    obtain ⟨k, v⟩ := hd
    by_cases hk : k = key
    · simp only [Headers.setArg, hk, if_true, List.mem_cons] at h ⊢
      rcases h with e | e
      · exact Or.inl (by rw [e])
      · exact Or.inr (Or.inr e)
    · simp only [Headers.setArg, hk, if_false, List.mem_cons] at h ⊢
      rcases h with e | e
      · exact Or.inr (Or.inl e)
      · rcases ih e with e1 | e1
        · exact Or.inl e1
        · exact Or.inr (Or.inr e1)

theorem Peek_setArg_same (headers : Headers) (key value : Str) :
    (headers.setArg key value).Peek key = some value := by
  induction headers with
  | nil => simp [Headers.setArg, Headers.Peek]
  | cons hd rest ih =>
    obtain ⟨k, v⟩ := hd
    by_cases hk : k = key
    · simp [Headers.setArg, Headers.Peek, hk]
    · simp [Headers.setArg, Headers.Peek, hk, ih]

theorem keys_setArg (headers : Headers) (key value : Str) :
    (headers.setArg key value).map Prod.fst =
      if key ∈ headers.map Prod.fst then headers.map Prod.fst
      else headers.map Prod.fst ++ [key] := by
  induction headers with
  | nil => simp [Headers.setArg]
  | cons hd rest ih =>
    obtain ⟨k, v⟩ := hd
    by_cases hk : k = key
    · subst hk
      simp [Headers.setArg]
    · have hk2 : ¬ key = k := fun e => hk e.symm
      simp only [Headers.setArg, hk, if_false, List.map_cons, ih, List.mem_cons, hk2, false_or]
      split <;> simp

theorem nodup_keys_setArg (headers : Headers) (key value : Str)
    (h : (headers.map Prod.fst).Nodup) : ((headers.setArg key value).map Prod.fst).Nodup := by
  rw [keys_setArg]
  split
  · exact h
  · rename_i hmem
    exact List.Nodup.append h (List.nodup_singleton key) (by simpa using hmem)

theorem Set_eq (headers : Headers) (key value : Str) :
    headers.Set key value = headers ∨
      ∃ stored, headers.Set key value = headers.setArg key stored := by
  unfold Headers.Set
  split
  · exact Or.inl rfl
  · split
    · split
      · split
        · exact Or.inl rfl
        · split
          · exact Or.inr ⟨_, rfl⟩
          · exact Or.inr ⟨_, rfl⟩
      · split
        · exact Or.inl rfl
        · exact Or.inr ⟨_, rfl⟩
    · exact Or.inr ⟨_, rfl⟩

theorem Set_content_type (headers : Headers) (value : Str) :
    headers.Set "Content-Type".toList value = headers.setArg "Content-Type".toList value := by
  unfold Headers.Set
  rw [if_neg (by decide), if_neg (by decide)]

theorem mem_Set (headers : Headers) (key value : Str) (kv : Str × Str)
    (h : kv ∈ headers.Set key value) : kv.1 = key ∨ kv ∈ headers := by
  rcases Set_eq headers key value with e | ⟨stored, e⟩
  · rw [e] at h
    exact Or.inr h
  · rw [e] at h
    exact mem_setArg headers key stored kv h

theorem nodup_keys_Set (headers : Headers) (key value : Str)
    (h : (headers.map Prod.fst).Nodup) : ((headers.Set key value).map Prod.fst).Nodup := by
  rcases Set_eq headers key value with e | ⟨stored, e⟩
  · rw [e]
    exact h
  · rw [e]
    exact nodup_keys_setArg headers key stored h

theorem Peek_of_mem_nodup (headers : Headers) (kv : Str × Str)
    (h : (headers.map Prod.fst).Nodup) (hmem : kv ∈ headers) :
    headers.Peek kv.1 = some kv.2 := by
  induction headers with
  | nil => simp at hmem
  | cons hd rest ih =>
    obtain ⟨k, v⟩ := hd
    simp only [List.map_cons, List.nodup_cons] at h
    rcases List.mem_cons.mp hmem with e | e
    · rw [e]
      simp [Headers.Peek]
    · have hne : k ≠ kv.1 := by
        intro hk
        exact h.1 (by rw [hk]; exact List.mem_map_of_mem Prod.fst e)
      simp [Headers.Peek, hne, ih h.2 e]

theorem nodup_keys_headerStep (headers : Headers) (index : Nat) (value : Str)
    (h : (headers.map Prod.fst).Nodup) :
    ((headerStep headers index value).map Prod.fst).Nodup := by
  rcases headerStep_eq headers index value with h1 | ⟨_, _, h1⟩
  · rw [h1]; exact h
  · rw [h1]; exact nodup_keys_Set _ _ _ h

theorem nodup_keys_headerLoop (lines : List Str) (index : Nat) (headers : Headers)
    (h : (headers.map Prod.fst).Nodup) :
    ((headerLoop index lines headers).map Prod.fst).Nodup := by
  induction lines generalizing index headers with
  | nil => simpa [headerLoop] using h
  | cons value rest ih =>
    simp only [headerLoop]
    exact ih _ _ (nodup_keys_headerStep headers index value h)

theorem headerStep_keys_clean (headers : Headers) (index : Nat) (value : Str)
    (h : ∀ kv ∈ headers, kv.1 ∉ denylist) :
    ∀ kv ∈ headerStep headers index value, kv.1 ∉ denylist := by
  rcases headerStep_eq headers index value with h1 | ⟨_, hclean, h1⟩
  · rw [h1]; exact h
  · rw [h1]
    intro kv hkv hd
    rcases mem_Set _ _ _ kv hkv with e | e
    · have hc := hclean kv.1 hd
      rw [e, (Contains_iff_within value _).mpr (headerName_within value)] at hc
      exact absurd hc (by simp)
    · exact h kv e hd

theorem headerLoop_keys_clean (lines : List Str) (index : Nat) (headers : Headers)
    (h : ∀ kv ∈ headers, kv.1 ∉ denylist) :
    ∀ kv ∈ headerLoop index lines headers, kv.1 ∉ denylist := by
  induction lines generalizing index headers with
  | nil => simpa [headerLoop] using h
  | cons value rest ih =>
    simp only [headerLoop]
    exact ih _ _ (headerStep_keys_clean headers index value h)

/-! ## `HitTarget`: the three method cases -/

theorem HitTarget_get_delete (env : Env) (ctx : RequestCtx) (targetEndPoint targetURI url : Str)
    (hurl : env.urlParse (targetEndPoint ++ targetURI) = some url)
    (hm : ctx.Method = "GET".toList ∨ ctx.Method = "DELETE".toList) :
    HitTarget env ctx targetEndPoint targetURI =
      some { resp := (env.Do (baseRequest ctx url) AcquireResponse).1,
             req := baseRequest ctx url, sent := [baseRequest ctx url] } := by
  have hc : (ctx.IsGet = true ∨ ctx.IsDelete = true) := by
    simpa [RequestCtx.IsGet, RequestCtx.IsDelete] using hm
  unfold HitTarget
  simp only [hurl, hc, if_true]
  rfl

theorem HitTarget_post_put (env : Env) (ctx : RequestCtx) (targetEndPoint targetURI url : Str)
    (hurl : env.urlParse (targetEndPoint ++ targetURI) = some url)
    (hm : ctx.Method = "POST".toList ∨ ctx.Method = "PUT".toList) :
    HitTarget env ctx targetEndPoint targetURI =
      some { resp := (env.Do (bodyRequest ctx url) AcquireResponse).1,
             req := bodyRequest ctx url, sent := [bodyRequest ctx url] } := by
  have hn : ¬ (ctx.IsGet = true ∨ ctx.IsDelete = true) := by
    rcases hm with h | h <;> simp [RequestCtx.IsGet, RequestCtx.IsDelete, h]
  have hc : (ctx.IsPost = true ∨ ctx.IsPut = true) := by
    simpa [RequestCtx.IsPost, RequestCtx.IsPut] using hm
  unfold HitTarget
  simp only [hurl, hn, hc, if_true, if_false]
  rfl

theorem HitTarget_other (env : Env) (ctx : RequestCtx) (targetEndPoint targetURI url : Str)
    (hurl : env.urlParse (targetEndPoint ++ targetURI) = some url)
    (hm : ctx.Method ≠ "GET".toList ∧ ctx.Method ≠ "DELETE".toList ∧
      ctx.Method ≠ "POST".toList ∧ ctx.Method ≠ "PUT".toList) :
    HitTarget env ctx targetEndPoint targetURI =
      some { resp := AcquireResponse, req := baseRequest ctx url, sent := [] } := by
  have hn : ¬ (ctx.IsGet = true ∨ ctx.IsDelete = true) := by
    rintro (h | h)
    · exact hm.1 (of_decide_eq_true h)
    · exact hm.2.1 (of_decide_eq_true h)
  have hc : ¬ (ctx.IsPost = true ∨ ctx.IsPut = true) := by
    rintro (h | h)
    · exact hm.2.2.1 (of_decide_eq_true h)
    · exact hm.2.2.2 (of_decide_eq_true h)
  unfold HitTarget
  simp only [hurl, hn, hc, if_false]
  rfl

theorem HitTarget_cases (env : Env) (ctx : RequestCtx) (targetEndPoint targetURI url : Str)
    (hurl : env.urlParse (targetEndPoint ++ targetURI) = some url) :
    ∃ hit, HitTarget env ctx targetEndPoint targetURI = some hit ∧
      (hit.req = baseRequest ctx url ∨ hit.req = bodyRequest ctx url) ∧
      (∀ r ∈ hit.sent, r = hit.req) := by
  by_cases h1 : ctx.Method = "GET".toList ∨ ctx.Method = "DELETE".toList
  · exact ⟨_, HitTarget_get_delete env ctx _ _ url hurl h1, Or.inl rfl, by simp⟩
  · by_cases h2 : ctx.Method = "POST".toList ∨ ctx.Method = "PUT".toList
    · exact ⟨_, HitTarget_post_put env ctx _ _ url hurl h2, Or.inr rfl, by simp⟩
    · exact ⟨_, HitTarget_other env ctx _ _ url hurl
          ⟨fun a => h1 (Or.inl a), fun a => h1 (Or.inr a), fun a => h2 (Or.inl a),
            fun a => h2 (Or.inr a)⟩,
        Or.inl rfl, by simp⟩

theorem copiedHeaders_clean (ctx : RequestCtx) : ∀ kv ∈ copiedHeaders ctx, kv.1 ∉ denylist :=
  headerLoop_keys_clean _ 0 [] (by simp)

theorem copiedHeaders_nodup (ctx : RequestCtx) : ((copiedHeaders ctx).map Prod.fst).Nodup :=
  nodup_keys_headerLoop _ 0 [] (by simp)

/-- C6: for every inbound header block and every method, a header line whose
name is Host, User-Agent, Postman-Token, Origin or Content-Length is skipped by
the header loop at every position, and the outbound request that `HitTarget`
builds, which is the request it sends if it sends one, has no header of such a
name. -/
theorem HitTarget_skips_denylisted (env : Env) (ctx : RequestCtx)
    (targetEndPoint targetURI url : Str)
    (hurl : env.urlParse (targetEndPoint ++ targetURI) = some url) :
    (∀ (headers : Headers) (index : Nat) (line : Str), headerName line ∈ denylist →
      headerStep headers index line = headers) ∧
    ∃ hit, HitTarget env ctx targetEndPoint targetURI = some hit ∧
      (∀ kv ∈ hit.req.headers, kv.1 ∉ denylist) ∧ (∀ r ∈ hit.sent, r = hit.req) := by
  refine ⟨fun headers index line h =>
    headerStep_of_denylisted headers index line ⟨_, h, headerName_within line⟩, ?_⟩
  obtain ⟨hit, hrun, hreq, hsent⟩ := HitTarget_cases env ctx targetEndPoint targetURI url hurl
  refine ⟨hit, hrun, ?_, hsent⟩
  rcases hreq with h | h
  · rw [h]
    exact copiedHeaders_clean ctx
  · rw [h]
    intro kv hkv
    rcases mem_Set (copiedHeaders ctx) "Content-Type".toList "text/xml".toList kv hkv with e | e
    · rw [e]
      decide
    · exact copiedHeaders_clean ctx kv e

/-- C8: for POST and PUT the outbound request that `HitTarget` sends has
exactly one header named Content-Type, its value is `text/xml` whatever the
inbound header block holds, and its body is the inbound body; for GET and
DELETE the request sent has an empty body whatever the inbound body is. -/
theorem HitTarget_body_and_content_type (env : Env) (ctx : RequestCtx)
    (targetEndPoint targetURI url : Str)
    (hurl : env.urlParse (targetEndPoint ++ targetURI) = some url) :
    ∃ hit, HitTarget env ctx targetEndPoint targetURI = some hit ∧
      (ctx.Method = "POST".toList ∨ ctx.Method = "PUT".toList →
        hit.sent = [hit.req] ∧
        hit.req.headers.Peek "Content-Type".toList = some "text/xml".toList ∧
        (∀ kv ∈ hit.req.headers, kv.1 = "Content-Type".toList → kv.2 = "text/xml".toList) ∧
        hit.req.body = ctx.body) ∧
      (ctx.Method = "GET".toList ∨ ctx.Method = "DELETE".toList →
        hit.sent = [hit.req] ∧ hit.req.body = []) := by
  by_cases h1 : ctx.Method = "GET".toList ∨ ctx.Method = "DELETE".toList
  · refine ⟨_, HitTarget_get_delete env ctx _ _ url hurl h1, fun h2 => ?_, fun _ => ⟨rfl, rfl⟩⟩
    rcases h1 with a | a <;> rcases h2 with b | b <;> rw [a] at b <;> exact absurd b (by decide)
  · by_cases h2 : ctx.Method = "POST".toList ∨ ctx.Method = "PUT".toList
    · refine ⟨_, HitTarget_post_put env ctx _ _ url hurl h2, fun _ => ?_, fun h => absurd h h1⟩
      have hset : (bodyRequest ctx url).headers =
          (copiedHeaders ctx).setArg "Content-Type".toList "text/xml".toList :=
        Set_content_type _ _
      refine ⟨rfl, ?_, ?_, rfl⟩
      · show (bodyRequest ctx url).headers.Peek "Content-Type".toList = some "text/xml".toList
        rw [hset]
        exact Peek_setArg_same _ _ _
      · intro kv hkv hname
        have hmem : kv ∈ (copiedHeaders ctx).setArg "Content-Type".toList "text/xml".toList := by
          rw [← hset]
          exact hkv
        have hpeek := Peek_of_mem_nodup _ kv (nodup_keys_setArg _ "Content-Type".toList
          "text/xml".toList (copiedHeaders_nodup ctx)) hmem
        rw [hname] at hpeek
        exact (Option.some.inj ((Peek_setArg_same _ _ _).symm.trans hpeek)).symm
    · exact ⟨_, HitTarget_other env ctx _ _ url hurl
          ⟨fun a => h1 (Or.inl a), fun a => h1 (Or.inr a), fun a => h2 (Or.inl a),
            fun a => h2 (Or.inr a)⟩,
        fun h => absurd h h2, fun h => absurd h h1⟩

/-- C6 on `POST /service1/Key` with the sample header block, which has the
lines `Host: gw` and `Content-Length: 4`, and on the line `Host: gw` alone. -/
theorem HitTarget_skips_denylisted_witness :
    headerName "Host: gw\r".toList ∈ denylist ∧
      headerStep [("Accept".toList, "a".toList)] 1 "Host: gw\r".toList =
        [("Accept".toList, "a".toList)] ∧
      ∃ hit, HitTarget (gateway (flagStore "false".toList) upstreamUp)
          (inbound "POST".toList "/service1/Key".toList) "https://abcActual.com".toList
          "/".toList = some hit ∧
        (∀ kv ∈ hit.req.headers, kv.1 ∉ denylist) ∧ (∀ r ∈ hit.sent, r = hit.req) :=
  ⟨by decide,
    (HitTarget_skips_denylisted (gateway (flagStore "false".toList) upstreamUp)
      (inbound "POST".toList "/service1/Key".toList) "https://abcActual.com".toList "/".toList
      "https://abcActual.com/".toList rfl).1 [("Accept".toList, "a".toList)] 1
      "Host: gw\r".toList (by decide),
    (HitTarget_skips_denylisted (gateway (flagStore "false".toList) upstreamUp)
      (inbound "POST".toList "/service1/Key".toList) "https://abcActual.com".toList "/".toList
      "https://abcActual.com/".toList rfl).2⟩

/-- C8 on `POST /service1/Key` and on `GET /service1/Key`, each with the body
`<a/>` and the inbound header `Content-Type: a/b`. -/
theorem HitTarget_body_and_content_type_witness :
    (∃ hit, HitTarget (gateway (flagStore "false".toList) upstreamUp)
          (inbound "POST".toList "/service1/Key".toList) "https://abcActual.com".toList
          "/".toList = some hit ∧
        hit.sent = [hit.req] ∧
        hit.req.headers.Peek "Content-Type".toList = some "text/xml".toList ∧
        hit.req.body = "<a/>".toList) ∧
      ∃ hit, HitTarget (gateway (flagStore "false".toList) upstreamUp)
          (inbound "GET".toList "/service1/Key".toList) "https://abcActual.com".toList
          "/".toList = some hit ∧
        hit.sent = [hit.req] ∧ hit.req.body = [] := by
  obtain ⟨hit, hrun, hpost, _⟩ :=
    HitTarget_body_and_content_type (gateway (flagStore "false".toList) upstreamUp)
      (inbound "POST".toList "/service1/Key".toList) "https://abcActual.com".toList "/".toList
      "https://abcActual.com/".toList rfl
  obtain ⟨other, hother, _, hget⟩ :=
    HitTarget_body_and_content_type (gateway (flagStore "false".toList) upstreamUp)
      (inbound "GET".toList "/service1/Key".toList) "https://abcActual.com".toList "/".toList
      "https://abcActual.com/".toList rfl
  obtain ⟨h1, h2, _, h4⟩ := hpost (Or.inl (by decide))
  exact ⟨⟨hit, hrun, h1, h2, h4⟩, other, hother, hget (Or.inl (by decide))⟩

/-! ## Forwarded headers -/

/-- C7: on `GET /service1/Key` the header line `X-Forwarded-Host: a` comes
after the request line, its name is none of Host, User-Agent, Postman-Token,
Origin and Content-Length, and no other line has that name; the one request
that `HitTarget` sends carries `Accept` with the value `text/xml`, but no
header named `X-Forwarded-Host`, because the line contains the text `Host`. -/
theorem HitTarget_drops_forwarded_host :
    (Split forwardedHostRequest.header (Char.ofNat 10))[4]? =
        some "X-Forwarded-Host: a\r".toList ∧
      headerName "X-Forwarded-Host: a\r".toList = "X-Forwarded-Host".toList ∧
      "X-Forwarded-Host".toList ∉ denylist ∧
      ((Split forwardedHostRequest.header (Char.ofNat 10)).map headerName).count
          "X-Forwarded-Host".toList = 1 ∧
      (HitTarget (gateway (flagStore "true".toList) upstreamUp) forwardedHostRequest
          "http://abcMock.com".toList "/".toList).map
        (fun hit => hit.sent.map (fun r =>
          (r.uri, r.headers.Peek "Accept".toList, r.headers.Peek "X-Forwarded-Host".toList))) =
        some [("http://abcMock.com/".toList, some "text/xml".toList, none)] := by
  decide

/-! ## `requestHandler`: the claims -/

theorem requestHandler_of_hit (env : Env) (ctx : RequestCtx) (endpointT : Str) (err : GoError)
    (hit : HitResult)
    (hroute : loadBalance (extractNameVersion ctx.requestURI).name
      (extractNameVersion ctx.requestURI).version env.ServiceRegistry env.Client =
        some (endpointT, err))
    (hne : endpointT ≠ [])
    (hhit : HitTarget env ctx endpointT (extractNameVersion ctx.requestURI).targetPath = some hit) :
    requestHandler env ctx =
      some { response := { statusCode := hit.resp.StatusCode,
                           contentType := hit.resp.PeekContentType, body := hit.resp.body },
             sent := hit.sent } := by
  unfold requestHandler
  simp only [hroute, hne, hhit, if_false]

/-- C9, as the code has it: for a method that is none of GET, DELETE, POST and
PUT, on a route that resolves to an endpoint whose target URL, endpoint followed
by downstream path, `url.Parse` accepts, `HitTarget` builds the outbound request
with that method, the target URL and the copied headers, but sends nothing and
returns the empty response it acquired; `requestHandler` answers with the status
200, the default content type and an empty body. -/
theorem requestHandler_other_method (env : Env) (ctx : RequestCtx) (endpointT : Str)
    (err : GoError) (url : Str)
    (hmethod : ctx.Method ≠ "GET".toList ∧ ctx.Method ≠ "DELETE".toList ∧
      ctx.Method ≠ "POST".toList ∧ ctx.Method ≠ "PUT".toList)
    (hroute : loadBalance (extractNameVersion ctx.requestURI).name
      (extractNameVersion ctx.requestURI).version env.ServiceRegistry env.Client =
        some (endpointT, err))
    (hne : endpointT ≠ [])
    (hurl : env.urlParse (endpointT ++ (extractNameVersion ctx.requestURI).targetPath) =
      some url) :
    HitTarget env ctx endpointT (extractNameVersion ctx.requestURI).targetPath =
        some { resp := AcquireResponse,
               req := { uri := url, method := ctx.Method, headers := copiedHeaders ctx,
                        body := [] },
               sent := [] } ∧
      requestHandler env ctx =
        some { response := { statusCode := 200,
                             contentType := "text/plain; charset=utf-8".toList, body := [] },
               sent := [] } := by
  have hhit := HitTarget_other env ctx endpointT _ url hurl hmethod
  refine ⟨hhit, ?_⟩
  rw [requestHandler_of_hit env ctx endpointT err _ hroute hne hhit]
  rfl

/-- C9, amended, on `PATCH /service1/Key/users/42` with the flag `true`. -/
theorem requestHandler_other_method_witness :
    requestHandler (gateway (flagStore "true".toList) upstreamUp)
        (inbound "PATCH".toList "/service1/Key/users/42".toList) =
      some { response := { statusCode := 200,
                           contentType := "text/plain; charset=utf-8".toList, body := [] },
             sent := [] } :=
  (requestHandler_other_method (gateway (flagStore "true".toList) upstreamUp)
    (inbound "PATCH".toList "/service1/Key/users/42".toList) "http://abcMock.com".toList none
    "http://abcMock.com/users/42".toList (by decide) (by decide) (by decide) (by decide)).2

/-- C9 as stated fails on `PATCH /service1/Key/users/42`: the route resolves to
the mock endpoint and the upstream would answer 201 with the body `<ok/>`, yet
no request is sent and the caller gets the status 200 with an empty body. -/
theorem requestHandler_patch_not_sent :
    loadBalance "service1".toList "Key".toList ServiceRegistry.toRegistry
        (flagStore "true".toList) = some ("http://abcMock.com".toList, none) ∧
      (requestHandler (gateway (flagStore "true".toList) upstreamUp)
          (inbound "PATCH".toList "/service1/Key/users/42".toList)).map
        (fun handled => (handled.sent, handled.response.statusCode, handled.response.body)) =
        some ([], 200, []) ∧
      (upstreamUp (baseRequest (inbound "PATCH".toList "/service1/Key/users/42".toList)
          "http://abcMock.com/users/42".toList) AcquireResponse).1 =
        { statusCode := 201, contentType := "application/xml".toList, body := "<ok/>".toList } := by
  decide

/-- C5, as the code has it: when the call of the HTTP client for the request
that `HitTarget` sends fails, `requestHandler` maps the failure to no status of
its own: it answers with the status, the content type and the body that the
response holds after the failed call, as it does after a call that succeeded;
the request sent is the base request for GET and DELETE and the request with
body for POST and PUT. -/
theorem requestHandler_relays_failed_dispatch (env : Env) (ctx : RequestCtx) (endpointT : Str)
    (err : GoError) (url : Str)
    (hroute : loadBalance (extractNameVersion ctx.requestURI).name
      (extractNameVersion ctx.requestURI).version env.ServiceRegistry env.Client =
        some (endpointT, err))
    (hne : endpointT ≠ [])
    (hurl : env.urlParse (endpointT ++ (extractNameVersion ctx.requestURI).targetPath) =
      some url) :
    (ctx.Method = "GET".toList ∨ ctx.Method = "DELETE".toList →
      (env.Do (baseRequest ctx url) AcquireResponse).2 ≠ none →
      requestHandler env ctx =
        some { response :=
                 { statusCode := (env.Do (baseRequest ctx url) AcquireResponse).1.StatusCode,
                   contentType := (env.Do (baseRequest ctx url) AcquireResponse).1.PeekContentType,
                   body := (env.Do (baseRequest ctx url) AcquireResponse).1.body },
               sent := [baseRequest ctx url] }) ∧
    (ctx.Method = "POST".toList ∨ ctx.Method = "PUT".toList →
      (env.Do (bodyRequest ctx url) AcquireResponse).2 ≠ none →
      requestHandler env ctx =
        some { response :=
                 { statusCode := (env.Do (bodyRequest ctx url) AcquireResponse).1.StatusCode,
                   contentType := (env.Do (bodyRequest ctx url) AcquireResponse).1.PeekContentType,
                   body := (env.Do (bodyRequest ctx url) AcquireResponse).1.body },
               sent := [bodyRequest ctx url] }) := by
  constructor
  · intro hm _
    exact requestHandler_of_hit env ctx endpointT err _ hroute hne
      (HitTarget_get_delete env ctx endpointT _ url hurl hm)
  · intro hm _
    exact requestHandler_of_hit env ctx endpointT err _ hroute hne
      (HitTarget_post_put env ctx endpointT _ url hurl hm)

/-- C5, amended, on `GET /service1/Key/users/42` with an upstream that cannot
be reached and leaves the response untouched: the caller gets the status 200,
the default content type and an empty body. -/
theorem requestHandler_relays_failed_dispatch_witness :
    (upstreamDown (baseRequest (inbound "GET".toList "/service1/Key/users/42".toList)
          "http://abcMock.com/users/42".toList) AcquireResponse).2 ≠ none ∧
      requestHandler (gateway (flagStore "true".toList) upstreamDown)
          (inbound "GET".toList "/service1/Key/users/42".toList) =
        some { response := { statusCode := 200,
                             contentType := "text/plain; charset=utf-8".toList, body := [] },
               sent := [baseRequest (inbound "GET".toList "/service1/Key/users/42".toList)
                 "http://abcMock.com/users/42".toList] } :=
  ⟨by decide,
    (requestHandler_relays_failed_dispatch (gateway (flagStore "true".toList) upstreamDown)
      (inbound "GET".toList "/service1/Key/users/42".toList) "http://abcMock.com".toList none
      "http://abcMock.com/users/42".toList (by decide) (by decide) (by decide)).1
      (by decide) (by decide)⟩

/-- C5 as stated fails on `GET /service1/Key/users/42` with an upstream that
cannot be reached: the call of the HTTP client returns an error, and the caller
is answered with the status 200, which is neither 502 nor 504, and with an empty
body. -/
theorem requestHandler_unreachable_answers_200 :
    (upstreamDown (baseRequest (inbound "GET".toList "/service1/Key/users/42".toList)
          "http://abcMock.com/users/42".toList) AcquireResponse).2 =
        some "dial tcp: connection refused".toList ∧
      (requestHandler (gateway (flagStore "true".toList) upstreamDown)
          (inbound "GET".toList "/service1/Key/users/42".toList)).map
        (fun handled => (handled.response.statusCode, handled.response.body,
          handled.sent.map (fun r => r.uri))) =
        some (200, [], ["http://abcMock.com/users/42".toList]) := by
  decide

theorem loadBalance_of_miss (serviceName serviceVersion : Str) (reg : Registry)
    (client : RedisClient)
    (hmiss : (reg.Lookup serviceName serviceVersion).2 ≠ none ∨
      (reg.Lookup serviceName serviceVersion).1 = []) :
    ∃ err, loadBalance serviceName serviceVersion reg client = some ([], some err) := by
  unfold loadBalance
  by_cases herr : (reg.Lookup serviceName serviceVersion).2 = none
  · have hempty : (reg.Lookup serviceName serviceVersion).1 = [] := by
      rcases hmiss with h | h
      · exact absurd herr h
      · exact h
    refine ⟨"No endpoint available for ".toList ++ serviceName ++ "/".toList ++ serviceVersion, ?_⟩
    simp only [herr, hempty, ne_eq, not_true_eq_false, if_false, List.length_nil, if_true]
  · obtain ⟨e, he⟩ := Option.ne_none_iff_exists.mp herr
    refine ⟨e, ?_⟩
    simp only [← he, ne_eq, reduceCtorEq, not_false_eq_true, if_true]

/-- C4, as the code has it: when the registry lookup for a service name and
version fails or yields an empty list, `loadBalance` returns an error with the
empty endpoint, and `requestHandler`, for a request whose path gives that name
and version, sends no upstream request and answers with the status 400, the
content type `application/json` and the body
`{"status": { "statusType": "ERROR", "statusMessage": "service name/version not found" }}`,
which is the specification's compact text once the white space between its
JSON tokens is dropped. -/
theorem requestHandler_not_found (env : Env) (ctx : RequestCtx) (serviceName serviceVersion : Str)
    (hmiss : (env.ServiceRegistry.Lookup serviceName serviceVersion).2 ≠ none ∨
      (env.ServiceRegistry.Lookup serviceName serviceVersion).1 = []) :
    (∃ err, loadBalance serviceName serviceVersion env.ServiceRegistry env.Client =
      some ([], some err)) ∧
    ((extractNameVersion ctx.requestURI).name = serviceName →
      (extractNameVersion ctx.requestURI).version = serviceVersion →
      requestHandler env ctx =
        some { response :=
                 { statusCode := 400, contentType := "application/json".toList,
                   body := "\x7b\"status\": \x7b \"statusType\": \"ERROR\", \"statusMessage\": \"service name/version not found\" \x7d\x7d".toList },
               sent := [] }) ∧
    jsonCompact false notFoundBody = compactNotFoundBody := by
  obtain ⟨e, he⟩ := loadBalance_of_miss serviceName serviceVersion env.ServiceRegistry
    env.Client hmiss
  refine ⟨⟨e, he⟩, ?_, by decide⟩
  intro hn hv
  unfold requestHandler
  simp only [hn, hv, he, if_true]
  rfl

/-- C4, amended, on `GET /unknown/v1` with the table `ServiceRegistry`. -/
theorem requestHandler_not_found_witness :
    (ServiceRegistry.toRegistry.Lookup "unknown".toList "v1".toList).2 ≠ none ∧
      requestHandler (gateway (flagStore "true".toList) upstreamUp)
          (inbound "GET".toList "/unknown/v1".toList) =
        some { response :=
                 { statusCode := 400, contentType := "application/json".toList,
                   body := "\x7b\"status\": \x7b \"statusType\": \"ERROR\", \"statusMessage\": \"service name/version not found\" \x7d\x7d".toList },
               sent := [] } :=
  ⟨by decide,
    (requestHandler_not_found (gateway (flagStore "true".toList) upstreamUp)
      (inbound "GET".toList "/unknown/v1".toList) "unknown".toList "v1".toList
      (Or.inl (by decide))).2.1 (by decide) (by decide)⟩

/-- C4 as stated fails on `GET /unknown/v1`: the registry lookup fails, the
status is 400 and nothing is sent, but the body written is not the compact text
of the specification: it has a space after each `:` and `,` and around the
inner braces. -/
theorem requestHandler_not_found_body_differs :
    (ServiceRegistry.toRegistry.Lookup "unknown".toList "v1".toList).2 ≠ none ∧
      (requestHandler (gateway (flagStore "true".toList) upstreamUp)
          (inbound "GET".toList "/unknown/v1".toList)).map
        (fun handled => handled.response.statusCode) = some 400 ∧
      (requestHandler (gateway (flagStore "true".toList) upstreamUp)
          (inbound "GET".toList "/unknown/v1".toList)).map
        (fun handled => handled.response.body) ≠
        some "\x7b\"status\":\x7b\"statusType\":\"ERROR\",\"statusMessage\":\"service name/version not found\"\x7d\x7d".toList := by
  decide

end HttpProxy
